import Mathlib

/-!
Verification of the off-chain transaction credit-score kernel.

The JavaScript source is shallowly embedded: transaction counts are
natural numbers, JavaScript floating-point arithmetic is modelled by
exact real arithmetic, `Math.round` by `round` (floor of x + 1/2),
`Math.floor` by `Int.floor`, and nullable values by `Option`.
-/

namespace CreditKernel

/-- Per-chain activity as aggregated per request: a transaction count and
an optional first-transaction timestamp (milliseconds since epoch). -/
structure ChainActivity where
  count : Nat
  firstTxTimestamp : Option Int
deriving DecidableEq, Repr

/-- The per-request transaction-data map, iterated in insertion order
exactly like `Object.entries(txData)` in the source. -/
abbrev TxData := List (String × ChainActivity)

/-- The nine configured networks, in the insertion order of the
`networks` object literal in the source. -/
def configuredChains : List String :=
  ["ethereum", "polygon", "arbitrum", "optimism", "base",
   "avalanche", "bsc", "fantom", "zksync"]

/-- The `weight` field of the static `networks` configuration table;
`none` for a chain identifier that is not a key of the table. -/
noncomputable def networkWeight (n : String) : Option ℝ :=
  if n = "ethereum" then some 1.0
  else if n = "polygon" then some 0.8
  else if n = "arbitrum" then some 0.7
  else if n = "optimism" then some 0.7
  else if n = "base" then some 0.7
  else if n = "avalanche" then some 0.7
  else if n = "bsc" then some 0.6
  else if n = "fantom" then some 0.6
  else if n = "zksync" then some 0.7
  else none

/-- Default minimum score (`MIN_SCORE`, env default 300). -/
def MIN_SCORE : ℤ := 300

/-- Default maximum score (`MAX_SCORE`, env default 850). -/
def MAX_SCORE : ℤ := 850

/-- Default pass threshold (`PASS_THRESHOLD`, env default 600). -/
def PASS_THRESHOLD : ℤ := 600

/-- `TX_COUNT_WEIGHT` from the source. -/
def TX_COUNT_WEIGHT : ℝ := 0.5

/-- `AGE_WEIGHT` from the source. -/
def AGE_WEIGHT : ℝ := 0.3

/-- `ACTIVITY_WEIGHT` from the source. -/
def ACTIVITY_WEIGHT : ℝ := 0.2

/-- `MAX_TX_COUNT` from the source. -/
def MAX_TX_COUNT : ℝ := 500

/-- `MAX_ACCOUNT_AGE_DAYS` from the source. -/
def MAX_ACCOUNT_AGE_DAYS : ℝ := 730

/-- `MAX_NETWORKS` from the source. -/
def MAX_NETWORKS : ℝ := 5

/-- `networks[network]?.weight || 0.5` — the weight actually used for a
chain: the configured weight unless it is absent or falsy (0), in which
case 0.5. -/
noncomputable def effectiveWeight (cfg : String → Option ℝ) (n : String) : ℝ :=
  match cfg n with
  | some w => if w = 0 then 0.5 else w
  | none => 0.5

/-- `totalWeightedTxCount`: sum over the map of `data.count * networkWeight`. -/
noncomputable def totalWeightedTxCount (cfg : String → Option ℝ) (txData : TxData) : ℝ :=
  (txData.map fun e => (e.2.count : ℝ) * effectiveWeight cfg e.1).sum

/-- `totalTransactions`: sum of the per-chain counts. -/
def totalTransactions (txData : TxData) : Nat :=
  (txData.map fun e => e.2.count).sum

/-- `activeNetworks`: the number of chains with at least 3 transactions. -/
def activeNetworks (txData : TxData) : Nat :=
  txData.countP fun e => 3 ≤ e.2.count

/-- The transaction component as a function of `totalWeightedTxCount`:
`min(log(S + 1) / log(MAX_TX_COUNT + 1), 1)` when `S > 0`, else 0. -/
noncomputable def txComponentOf (S : ℝ) : ℝ :=
  if 0 < S then min (Real.log (S + 1) / Real.log (MAX_TX_COUNT + 1)) 1 else 0

/-- `txComponent` of the source, for a given weight table. -/
noncomputable def txComponent (cfg : String → Option ℝ) (txData : TxData) : ℝ :=
  txComponentOf (totalWeightedTxCount cfg txData)

/-- `ageBonus`: 0.1 when the wallet has transactions and is younger than
30 days, else 0. -/
noncomputable def ageBonus (txData : TxData) (accountAgeInDays : ℝ) : ℝ :=
  if 0 < totalTransactions txData ∧ accountAgeInDays < 30 then 0.1 else 0

/-- `ageComponent`: `min(sqrt(age / MAX_ACCOUNT_AGE_DAYS) + ageBonus, 1)`. -/
noncomputable def ageComponent (txData : TxData) (accountAgeInDays : ℝ) : ℝ :=
  min (Real.sqrt (accountAgeInDays / MAX_ACCOUNT_AGE_DAYS) + ageBonus txData accountAgeInDays) 1

/-- `activityComponent`: `min(activeNetworks / MAX_NETWORKS, 1)`. -/
noncomputable def activityComponent (txData : TxData) : ℝ :=
  min ((activeNetworks txData : ℝ) / MAX_NETWORKS) 1

/-- `weightedScore`: the convex-style combination of the three components. -/
noncomputable def weightedScore (cfg : String → Option ℝ) (txData : TxData)
    (accountAgeInDays : ℝ) : ℝ :=
  txComponent cfg txData * TX_COUNT_WEIGHT +
    ageComponent txData accountAgeInDays * AGE_WEIGHT +
    activityComponent txData * ACTIVITY_WEIGHT

/-- `finalScore = MIN_SCORE + weightedScore * (MAX_SCORE - MIN_SCORE)`. -/
noncomputable def finalScore (cfg : String → Option ℝ) (txData : TxData)
    (accountAgeInDays : ℝ) : ℝ :=
  (MIN_SCORE : ℝ) + weightedScore cfg txData accountAgeInDays * ((MAX_SCORE : ℝ) - (MIN_SCORE : ℝ))

/-- The object returned by `calculateCreditScore`. -/
structure ScoreResult where
  score : ℤ
  txCount : Nat
  weightedTxCount : ℝ
  txComponent : ℝ
  ageComponent : ℝ
  activityComponent : ℝ
  activeNetworks : Nat
  details : TxData
  accountAgeInDays : ℝ
  status : String

/-- `calculateCreditScore` with the weight table abstracted (the source
closes over the global `networks` table; see `calculateCreditScore`). -/
noncomputable def calcScoreWith (cfg : String → Option ℝ) (txData : TxData)
    (accountAgeInDays : ℝ) : ScoreResult :=
  { score := round (finalScore cfg txData accountAgeInDays)
    txCount := totalTransactions txData
    weightedTxCount := totalWeightedTxCount cfg txData
    txComponent := txComponent cfg txData
    ageComponent := ageComponent txData accountAgeInDays
    activityComponent := activityComponent txData
    activeNetworks := activeNetworks txData
    details := txData
    accountAgeInDays := accountAgeInDays
    status := if PASS_THRESHOLD ≤ round (finalScore cfg txData accountAgeInDays)
              then "pass" else "fail" }

/-- `calculateCreditScore` from the source, with the configured table. -/
noncomputable def calculateCreditScore (txData : TxData) (accountAgeInDays : ℝ) : ScoreResult :=
  calcScoreWith networkWeight txData accountAgeInDays

/-! ## Account-age derivation (GET handler, after the fan-out join) -/

/-- JavaScript truthiness of a nullable number: `null` and `0` are falsy. -/
def jsFalsy : Option Int → Bool
  | none => true
  | some t => t == 0

/-- One iteration of the oldest-timestamp loop:
`if (data.firstTxTimestamp && (!oldestTxTimestamp || data.firstTxTimestamp < oldestTxTimestamp))`. -/
def updateOldest (acc : Option Int) (ts : Option Int) : Option Int :=
  match ts, acc with
  | none, _ => acc
  | some t, none => if t = 0 then acc else some t
  | some t, some old => if t = 0 then acc else if old = 0 ∨ t < old then some t else acc

/-- `oldestTxTimestamp`: the loop over `Object.entries(txData)`. -/
def oldestTxTimestamp (txData : TxData) : Option Int :=
  txData.foldl (fun acc e => updateOldest acc e.2.firstTxTimestamp) none

/-- `hasTxButNoTimestamp`: some chain has `count > 0` and a falsy timestamp. -/
def hasTxButNoTimestamp (txData : TxData) : Bool :=
  txData.any fun e => decide (0 < e.2.count) && jsFalsy e.2.firstTxTimestamp

/-- `accountAgeInDays` as derived in the GET handler: floored day delta
from the oldest truthy timestamp; otherwise the `min(5 * totalTxCount, 365)`
estimate when some chain has transactions but no timestamp; otherwise 0. -/
noncomputable def accountAgeInDays (now : ℝ) (txData : TxData) : ℝ :=
  match oldestTxTimestamp txData with
  | some ts =>
    if ts = 0 then
      if hasTxButNoTimestamp txData then min ((totalTransactions txData : ℝ) * 5) 365 else 0
    else ((⌊(now - (ts : ℝ)) / (1000 * 60 * 60 * 24)⌋ : ℤ) : ℝ)
  | none =>
    if hasTxButNoTimestamp txData then min ((totalTransactions txData : ℝ) * 5) 365 else 0

/-! ## Fan-out join (GET handler, building the per-request map) -/

/-- The initialization value `{ count: 0, firstTxTimestamp: null }` used
for every network, and kept when a fetch fails, times out or is skipped. -/
def defaultActivity : ChainActivity := ⟨0, none⟩

/-- The per-request map after the join: every configured chain gets one
entry; a chain whose fetch produced a result keeps it, every other chain
(failed, timed out, or disabled hence never fetched) keeps the default. -/
def buildTxData (fetched : String → Option ChainActivity) : TxData :=
  configuredChains.map fun n => (n, (fetched n).getD defaultActivity)

/-! ## HTTP surface (wallet validation and routing) -/

/-- One character of `[a-fA-F0-9]`. -/
def isHexDigit (c : Char) : Bool :=
  ('0' ≤ c && c ≤ '9') || ('a' ≤ c && c ≤ 'f') || ('A' ≤ c && c ≤ 'F')

/-- The wallet-address validation `^0x[a-fA-F0-9]{40}$` (also rejecting
the falsy empty string, as `!walletAddress ||` does). -/
def isValidWalletAddress : List Char → Bool
  | '0' :: 'x' :: rest => rest.length == 40 && rest.all isHexDigit
  | _ => false

/-- Observable outcome of a request: the bare integer score, a 400
validation error, or a 500 internal error. -/
inductive HttpResponse where
  | ok (score : ℤ)
  | badRequest
  | serverError
deriving DecidableEq, Repr

/-- A request hitting the wallet-score routes: `GET /wallet-score/{addr}`
or `POST /wallet-score` whose JSON body may or may not carry a
`wallet_address` string. -/
inductive WalletRequest where
  | get (walletAddress : List Char)
  | post (walletAddress : Option (List Char))

/-- The GET handler's observable behaviour: validate, then answer with the
score the core computation produces for this address (`scoreOf` abstracts
the fetch-and-score pipeline). -/
def getWalletScore (scoreOf : List Char → ℤ) (addr : List Char) : HttpResponse :=
  if isValidWalletAddress addr then .ok (scoreOf addr) else .badRequest

/-- The app's route dispatch. The POST handler validates, then calls
`app.handle` on the *unchanged* request (method still POST, url still
`/wallet-score`), which re-matches the POST route itself; `fuel` models the
finite call stack, its exhaustion the stack overflow that the handler's
`catch` converts into a 500 response. -/
def dispatch (scoreOf : List Char → ℤ) : Nat → WalletRequest → HttpResponse
  | _, .get addr => getWalletScore scoreOf addr
  | _, .post none => .badRequest
  | fuel, .post (some addr) =>
    if isValidWalletAddress addr then
      match fuel with
      | 0 => .serverError
      | fuel' + 1 => dispatch scoreOf fuel' (.post (some addr))
    else .badRequest

/-! ## Concrete scenarios -/

/-- Scenario A: every configured chain with zero activity. -/
def allZeroChains : TxData := configuredChains.map fun n => (n, defaultActivity)

/-- Scenario D: ten transactions on ethereum, no timestamp anywhere. -/
def scenarioDMap : TxData :=
  configuredChains.map fun n =>
    (n, if n = "ethereum" then ⟨10, none⟩ else defaultActivity)

/-- A map with 500 transactions on ethereum only. -/
def ethOnly500 : TxData := [("ethereum", ⟨500, none⟩)]

/-- A syntactically valid wallet address. -/
def sampleAddress : List Char := '0' :: 'x' :: List.replicate 40 'a'

/-! ## Basic facts about the weight table and the components -/

lemma networkWeight_pos {n : String} {w : ℝ} (h : networkWeight n = some w) : 0 < w := by
  unfold networkWeight at h
  split_ifs at h <;> first
    | exact Option.noConfusion h
    | (injection h with h; subst h; norm_num)

lemma effectiveWeight_pos (cfg : String → Option ℝ) (n : String)
    (h : ∀ w, cfg n = some w → 0 < w) : 0 < effectiveWeight cfg n := by
  unfold effectiveWeight
  cases hc : cfg n with
  | none => norm_num
  | some w =>
    have hw := h w hc
    show 0 < if w = 0 then (0.5 : ℝ) else w
    split_ifs with h0
    · norm_num
    · exact hw

lemma effectiveWeight_networkWeight_pos (n : String) : 0 < effectiveWeight networkWeight n :=
  effectiveWeight_pos networkWeight n fun _ hw => networkWeight_pos hw

lemma totalWeightedTxCount_nonneg (txData : TxData) :
    0 ≤ totalWeightedTxCount networkWeight txData := by
  unfold totalWeightedTxCount
  apply List.sum_nonneg
  intro x hx
  obtain ⟨e, -, rfl⟩ := List.mem_map.mp hx
  exact mul_nonneg (Nat.cast_nonneg _) (effectiveWeight_networkWeight_pos _).le

lemma log_MAX_pos : 0 < Real.log (MAX_TX_COUNT + 1) :=
  Real.log_pos (by norm_num [MAX_TX_COUNT])

lemma txComponentOf_nonneg (S : ℝ) : 0 ≤ txComponentOf S := by
  unfold txComponentOf
  split_ifs with h1
  · exact le_min (div_nonneg (Real.log_nonneg (by linarith)) log_MAX_pos.le) zero_le_one
  · exact le_rfl

lemma txComponentOf_le_one (S : ℝ) : txComponentOf S ≤ 1 := by
  unfold txComponentOf
  split_ifs with h1
  · exact min_le_right _ _
  · exact zero_le_one

lemma txComponentOf_mono {a b : ℝ} (h : a ≤ b) :
    txComponentOf a ≤ txComponentOf b := by
  unfold txComponentOf
  split_ifs with h1 h2 h2
  · refine min_le_min ?_ le_rfl
    have hL := log_MAX_pos
    rw [div_le_div_iff_of_pos_right hL]
    exact Real.log_le_log (by linarith) (by linarith)
  · exact absurd (lt_of_lt_of_le h1 h) h2
  · exact le_min (div_nonneg (Real.log_nonneg (by linarith)) log_MAX_pos.le) zero_le_one
  · exact le_rfl

lemma ageBonus_nonneg (txData : TxData) (age : ℝ) : 0 ≤ ageBonus txData age := by
  unfold ageBonus
  split_ifs <;> norm_num

lemma ageComponent_nonneg (txData : TxData) (age : ℝ) : 0 ≤ ageComponent txData age :=
  le_min (add_nonneg (Real.sqrt_nonneg _) (ageBonus_nonneg txData age)) zero_le_one

lemma ageComponent_le_one (txData : TxData) (age : ℝ) : ageComponent txData age ≤ 1 :=
  min_le_right _ _

lemma activityComponent_nonneg (txData : TxData) : 0 ≤ activityComponent txData :=
  le_min (div_nonneg (Nat.cast_nonneg _) (by norm_num [MAX_NETWORKS])) zero_le_one

lemma activityComponent_le_one (txData : TxData) : activityComponent txData ≤ 1 :=
  min_le_right _ _

lemma weightedScore_nonneg (txData : TxData) (age : ℝ) :
    0 ≤ weightedScore networkWeight txData age := by
  unfold weightedScore
  have h1 := txComponentOf_nonneg (totalWeightedTxCount networkWeight txData)
  have h2 := ageComponent_nonneg txData age
  have h3 := activityComponent_nonneg txData
  unfold txComponent at *
  unfold TX_COUNT_WEIGHT AGE_WEIGHT ACTIVITY_WEIGHT
  nlinarith

lemma weightedScore_le_one (txData : TxData) (age : ℝ) :
    weightedScore networkWeight txData age ≤ 1 := by
  unfold weightedScore
  have h0 := txComponentOf_nonneg (totalWeightedTxCount networkWeight txData)
  have h1 := txComponentOf_le_one (totalWeightedTxCount networkWeight txData)
  have h2 := ageComponent_le_one txData age
  have h2n := ageComponent_nonneg txData age
  have h3 := activityComponent_le_one txData
  have h3n := activityComponent_nonneg txData
  unfold txComponent at *
  unfold TX_COUNT_WEIGHT AGE_WEIGHT ACTIVITY_WEIGHT
  nlinarith

lemma finalScore_lower (txData : TxData) (age : ℝ) :
    (300 : ℝ) ≤ finalScore networkWeight txData age := by
  have hw := weightedScore_nonneg txData age
  unfold finalScore MIN_SCORE MAX_SCORE
  push_cast
  nlinarith

lemma finalScore_upper (txData : TxData) (age : ℝ) :
    finalScore networkWeight txData age ≤ 850 := by
  have hw := weightedScore_le_one txData age
  unfold finalScore MIN_SCORE MAX_SCORE
  push_cast
  nlinarith

/-! ## Claim theorems -/

/-- C1: for every transaction-data map and every non-negative account age,
`calculateCreditScore` is a total function whose score is an integer with
`MIN_SCORE ≤ score ≤ MAX_SCORE` (defaults 300 and 850). -/
theorem creditScore_total_and_bounded (txData : TxData) (age : ℝ) (_h : 0 ≤ age) :
    MIN_SCORE ≤ (calculateCreditScore txData age).score ∧
      (calculateCreditScore txData age).score ≤ MAX_SCORE := by
  have hlo := finalScore_lower txData age
  have hhi := finalScore_upper txData age
  constructor
  · show MIN_SCORE ≤ round (finalScore networkWeight txData age)
    rw [round_eq, MIN_SCORE]
    exact Int.le_floor.mpr (by push_cast; linarith)
  · show round (finalScore networkWeight txData age) ≤ MAX_SCORE
    rw [round_eq, MAX_SCORE]
    have hf : ⌊finalScore networkWeight txData age + 1 / 2⌋ < 851 :=
      Int.floor_lt.mpr (by push_cast; linarith)
    omega

/-- Witness for C1 at the empty map and age 0. -/
theorem creditScore_total_and_bounded_witness :
    MIN_SCORE ≤ (calculateCreditScore [] 0).score ∧
      (calculateCreditScore [] 0).score ≤ MAX_SCORE :=
  creditScore_total_and_bounded [] 0 le_rfl

/-- C2: the transaction component equals
`min(ln(1 + Σ count_i * weight_i) / ln(1 + 500), 1)`, lies in `[0, 1]`, and
the weight used for every chain present in the table is its configured
weight. -/
theorem txComponent_formula (txData : TxData) (age : ℝ) :
    (calculateCreditScore txData age).txComponent
        = min (Real.log (1 + totalWeightedTxCount networkWeight txData) /
            Real.log (1 + 500)) 1
      ∧ 0 ≤ (calculateCreditScore txData age).txComponent
      ∧ (calculateCreditScore txData age).txComponent ≤ 1
      ∧ ∀ e ∈ txData, ∀ w, networkWeight e.1 = some w →
          effectiveWeight networkWeight e.1 = w := by
  have hS := totalWeightedTxCount_nonneg txData
  refine ⟨?_, ?_, ?_, ?_⟩
  · show txComponentOf (totalWeightedTxCount networkWeight txData) = _
    unfold txComponentOf
    split_ifs with h1
    · rw [add_comm (totalWeightedTxCount networkWeight txData) 1]
      norm_num [MAX_TX_COUNT]
    · have h0 : totalWeightedTxCount networkWeight txData = 0 :=
        le_antisymm (not_lt.mp h1) hS
      rw [h0]
      simp [Real.log_one]
  · exact txComponentOf_nonneg _
  · exact txComponentOf_le_one _
  · intro e _ w hw
    unfold effectiveWeight
    rw [hw]
    have hw0 : w ≠ 0 := (networkWeight_pos hw).ne'
    simp [hw0]

/-- Witness for C2 at a one-chain map. -/
theorem txComponent_formula_witness :
    (calculateCreditScore [("ethereum", ⟨1, none⟩)] 0).txComponent
        = min (Real.log (1 + totalWeightedTxCount networkWeight [("ethereum", ⟨1, none⟩)]) /
            Real.log (1 + 500)) 1
      ∧ 0 ≤ (calculateCreditScore [("ethereum", ⟨1, none⟩)] 0).txComponent
      ∧ (calculateCreditScore [("ethereum", ⟨1, none⟩)] 0).txComponent ≤ 1
      ∧ ∀ e ∈ ([("ethereum", ⟨1, none⟩)] : TxData), ∀ w, networkWeight e.1 = some w →
          effectiveWeight networkWeight e.1 = w :=
  txComponent_formula [("ethereum", ⟨1, none⟩)] 0

/-- C3: the age component equals `min(sqrt(age / 730) + ageBonus, 1)` where
the 0.1 bonus applies exactly when the wallet has transactions and is
younger than 30 days. -/
theorem ageComponent_formula (txData : TxData) (age : ℝ) (_h : 0 ≤ age) :
    ((0 < totalTransactions txData ∧ age < 30) →
        (calculateCreditScore txData age).ageComponent
          = min (Real.sqrt (age / 730) + 0.1) 1)
      ∧ (¬(0 < totalTransactions txData ∧ age < 30) →
        (calculateCreditScore txData age).ageComponent
          = min (Real.sqrt (age / 730)) 1) := by
  constructor <;> intro hc
  · show CreditKernel.ageComponent txData age = _
    unfold ageComponent ageBonus MAX_ACCOUNT_AGE_DAYS
    rw [if_pos hc]
  · show CreditKernel.ageComponent txData age = _
    unfold ageComponent ageBonus MAX_ACCOUNT_AGE_DAYS
    rw [if_neg hc, add_zero]

/-- Witness for C3 at a young active wallet. -/
theorem ageComponent_formula_witness :
    (calculateCreditScore [("ethereum", ⟨1, none⟩)] 0).ageComponent
      = min (Real.sqrt ((0 : ℝ) / 730) + 0.1) 1 :=
  (ageComponent_formula [("ethereum", ⟨1, none⟩)] 0 le_rfl).1
    ⟨by decide, by norm_num⟩

/-- C5: a map in which every chain has zero transactions, at age 0, scores
exactly `MIN_SCORE` with all three components zero and no age bonus. -/
theorem zeroActivity_minScore (txData : TxData) (h : ∀ e ∈ txData, e.2.count = 0) :
    (calculateCreditScore txData 0).score = MIN_SCORE
      ∧ (calculateCreditScore txData 0).txComponent = 0
      ∧ (calculateCreditScore txData 0).ageComponent = 0
      ∧ (calculateCreditScore txData 0).activityComponent = 0
      ∧ ageBonus txData 0 = 0 := by
  have htot : totalTransactions txData = 0 := by
    unfold totalTransactions
    apply List.sum_eq_zero
    intro x hx
    obtain ⟨e, he, rfl⟩ := List.mem_map.mp hx
    exact h e he
  have hS : totalWeightedTxCount networkWeight txData = 0 := by
    unfold totalWeightedTxCount
    apply List.sum_eq_zero
    intro x hx
    obtain ⟨e, he, rfl⟩ := List.mem_map.mp hx
    rw [h e he]
    simp
  have hact : activeNetworks txData = 0 := by
    unfold activeNetworks
    rw [List.countP_eq_zero]
    intro e he
    simp [h e he]
  have hbonus : ageBonus txData 0 = 0 := by
    unfold ageBonus
    rw [if_neg]
    rw [htot]
    simp
  have htx : txComponent networkWeight txData = 0 := by
    unfold txComponent txComponentOf
    rw [hS, if_neg (lt_irrefl 0)]
  have hage : CreditKernel.ageComponent txData 0 = 0 := by
    unfold ageComponent
    rw [hbonus]
    norm_num [MAX_ACCOUNT_AGE_DAYS, Real.sqrt_zero]
  have hactc : CreditKernel.activityComponent txData = 0 := by
    unfold activityComponent
    rw [hact]
    norm_num [MAX_NETWORKS]
  have hw : weightedScore networkWeight txData 0 = 0 := by
    unfold weightedScore
    rw [htx, hage, hactc]
    ring
  have hf : finalScore networkWeight txData 0 = ((MIN_SCORE : ℤ) : ℝ) := by
    unfold finalScore
    rw [hw]
    ring
  refine ⟨?_, htx, hage, hactc, hbonus⟩
  show round (finalScore networkWeight txData 0) = MIN_SCORE
  rw [hf, round_intCast]

/-- Witness for C5: scenario A, all nine configured chains at zero. -/
theorem zeroActivity_minScore_witness :
    (calculateCreditScore allZeroChains 0).score = MIN_SCORE
      ∧ (calculateCreditScore allZeroChains 0).txComponent = 0
      ∧ (calculateCreditScore allZeroChains 0).ageComponent = 0
      ∧ (calculateCreditScore allZeroChains 0).activityComponent = 0
      ∧ ageBonus allZeroChains 0 = 0 :=
  zeroActivity_minScore allZeroChains (by decide)

/-- C7: holding every other entry of the map fixed, increasing one chain's
transaction count never decreases the transaction component. -/
theorem txComponent_monotone (pre post : TxData) (n : String) (a b : ChainActivity)
    (age : ℝ) (h : a.count ≤ b.count) :
    (calculateCreditScore (pre ++ (n, a) :: post) age).txComponent ≤
      (calculateCreditScore (pre ++ (n, b) :: post) age).txComponent := by
  show txComponentOf (totalWeightedTxCount networkWeight (pre ++ (n, a) :: post)) ≤
    txComponentOf (totalWeightedTxCount networkWeight (pre ++ (n, b) :: post))
  apply txComponentOf_mono
  unfold totalWeightedTxCount
  rw [List.map_append, List.sum_append, List.map_cons, List.sum_cons,
    List.map_append, List.sum_append, List.map_cons, List.sum_cons]
  have hw := effectiveWeight_networkWeight_pos n
  have hab : (a.count : ℝ) * effectiveWeight networkWeight n ≤
      (b.count : ℝ) * effectiveWeight networkWeight n := by
    apply mul_le_mul_of_nonneg_right _ hw.le
    exact_mod_cast h
  linarith

/-- Witness for C7: 0 vs 1 transaction on ethereum. -/
theorem txComponent_monotone_witness :
    (calculateCreditScore ([] ++ ("ethereum", ⟨0, none⟩) :: []) 0).txComponent ≤
      (calculateCreditScore ([] ++ ("ethereum", ⟨1, none⟩) :: []) 0).txComponent :=
  txComponent_monotone [] [] "ethereum" ⟨0, none⟩ ⟨1, none⟩ 0 (by decide)

/-! ## Facts about the oldest-timestamp fold -/

lemma updateOldest_eq_none {acc ts : Option Int} (h : updateOldest acc ts = none) :
    acc = none ∧ (ts = none ∨ ts = some 0) := by
  cases ts with
  | none => exact ⟨h, Or.inl rfl⟩
  | some t =>
    cases acc with
    | none =>
      simp only [updateOldest] at h
      by_cases h0 : t = 0
      · exact ⟨rfl, Or.inr (by rw [h0])⟩
      · rw [if_neg h0] at h
        exact Option.noConfusion h
    | some old =>
      simp only [updateOldest] at h
      by_cases h0 : t = 0
      · rw [if_pos h0] at h
        exact Option.noConfusion h
      · rw [if_neg h0] at h
        by_cases h1 : old = 0 ∨ t < old
        · rw [if_pos h1] at h
          exact Option.noConfusion h
        · rw [if_neg h1] at h
          exact Option.noConfusion h

lemma updateOldest_wf {acc ts : Option Int} (hwf : ∀ o, acc = some o → o ≠ 0) :
    ∀ o, updateOldest acc ts = some o → o ≠ 0 := by
  intro o h
  cases ts with
  | none => exact hwf o h
  | some t =>
    cases acc with
    | none =>
      simp only [updateOldest] at h
      by_cases h0 : t = 0
      · rw [if_pos h0] at h
        exact Option.noConfusion h
      · rw [if_neg h0] at h
        exact (Option.some.inj h) ▸ h0
    | some old =>
      simp only [updateOldest] at h
      by_cases h0 : t = 0
      · rw [if_pos h0] at h
        exact hwf o h
      · rw [if_neg h0] at h
        by_cases h1 : old = 0 ∨ t < old
        · rw [if_pos h1] at h
          exact (Option.some.inj h) ▸ h0
        · rw [if_neg h1] at h
          exact hwf o h

lemma updateOldest_provenance {acc ts : Option Int} {o : ℤ}
    (h : updateOldest acc ts = some o) : acc = some o ∨ ts = some o := by
  cases ts with
  | none => exact Or.inl h
  | some t =>
    cases acc with
    | none =>
      simp only [updateOldest] at h
      by_cases h0 : t = 0
      · rw [if_pos h0] at h
        exact Option.noConfusion h
      · rw [if_neg h0] at h
        exact Or.inr h
    | some old =>
      simp only [updateOldest] at h
      by_cases h0 : t = 0
      · rw [if_pos h0] at h
        exact Or.inl h
      · rw [if_neg h0] at h
        by_cases h1 : old = 0 ∨ t < old
        · rw [if_pos h1] at h
          exact Or.inr h
        · rw [if_neg h1] at h
          exact Or.inl h

lemma updateOldest_le_acc {acc ts : Option Int} {o o' : ℤ}
    (hwf : ∀ x, acc = some x → x ≠ 0) (ha : acc = some o)
    (h : updateOldest acc ts = some o') : o' ≤ o := by
  subst ha
  cases ts with
  | none => exact le_of_eq (Option.some.inj h).symm
  | some t =>
    simp only [updateOldest] at h
    by_cases h0 : t = 0
    · rw [if_pos h0] at h
      exact le_of_eq (Option.some.inj h).symm
    · rw [if_neg h0] at h
      by_cases h1 : o = 0 ∨ t < o
      · rw [if_pos h1] at h
        have hto : t < o := h1.resolve_left (hwf o rfl)
        exact le_of_lt ((Option.some.inj h) ▸ hto)
      · rw [if_neg h1] at h
        exact le_of_eq (Option.some.inj h).symm

lemma updateOldest_le_ts {acc : Option Int} {t o' : ℤ}
    (hwf : ∀ x, acc = some x → x ≠ 0) (ht : t ≠ 0)
    (h : updateOldest acc (some t) = some o') : o' ≤ t := by
  cases acc with
  | none =>
    simp only [updateOldest] at h
    rw [if_neg ht] at h
    exact le_of_eq (Option.some.inj h).symm
  | some old =>
    simp only [updateOldest] at h
    rw [if_neg ht] at h
    by_cases h1 : old = 0 ∨ t < old
    · rw [if_pos h1] at h
      exact le_of_eq (Option.some.inj h).symm
    · rw [if_neg h1] at h
      push_neg at h1
      exact le_of_eq (Option.some.inj h).symm |>.trans h1.2

lemma updateOldest_ne_none {acc : Option Int} {t : ℤ} (ht : t ≠ 0) :
    updateOldest acc (some t) ≠ none := by
  cases acc with
  | none => simp [updateOldest, ht]
  | some old =>
    simp only [updateOldest]
    rw [if_neg ht]
    split_ifs <;> simp

lemma oldest_foldl_none (l : TxData) :
    ∀ acc : Option Int,
      l.foldl (fun a e => updateOldest a e.2.firstTxTimestamp) acc = none →
      acc = none ∧ ∀ e ∈ l,
        e.2.firstTxTimestamp = none ∨ e.2.firstTxTimestamp = some 0 := by
  induction l with
  | nil =>
    intro acc h
    exact ⟨h, by simp⟩
  | cons e l ih =>
    intro acc h
    rw [List.foldl_cons] at h
    obtain ⟨h1, h2⟩ := ih _ h
    obtain ⟨ha, hts⟩ := updateOldest_eq_none h1
    refine ⟨ha, ?_⟩
    intro e1 he1
    rcases List.mem_cons.mp he1 with rfl | hm
    · exact hts
    · exact h2 e1 hm

lemma oldest_foldl_some (l : TxData) :
    ∀ acc : Option Int, (∀ o, acc = some o → o ≠ 0) →
      ∀ ts : ℤ, l.foldl (fun a e => updateOldest a e.2.firstTxTimestamp) acc = some ts →
        ts ≠ 0
        ∧ (acc = some ts ∨ ∃ e ∈ l, e.2.firstTxTimestamp = some ts)
        ∧ (∀ o, acc = some o → ts ≤ o)
        ∧ (∀ e ∈ l, ∀ t : ℤ, e.2.firstTxTimestamp = some t → t ≠ 0 → ts ≤ t) := by
  induction l with
  | nil =>
    intro acc hwf ts h
    rw [List.foldl_nil] at h
    refine ⟨hwf ts h, Or.inl h, ?_, by simp⟩
    intro o ho
    exact le_of_eq (Option.some.inj (h.symm.trans ho))
  | cons e l ih =>
    intro acc hwf ts h
    rw [List.foldl_cons] at h
    have hwf' : ∀ o, updateOldest acc e.2.firstTxTimestamp = some o → o ≠ 0 :=
      updateOldest_wf hwf
    obtain ⟨hne, hmem, haccb, hlistb⟩ := ih _ hwf' ts h
    refine ⟨hne, ?_, ?_, ?_⟩
    · rcases hmem with hm | ⟨e1, he1, hts1⟩
      · rcases updateOldest_provenance hm with h1 | h1
        · exact Or.inl h1
        · exact Or.inr ⟨e, List.mem_cons_self e l, h1⟩
      · exact Or.inr ⟨e1, List.mem_cons_of_mem _ he1, hts1⟩
    · intro o ho
      cases ho' : updateOldest acc e.2.firstTxTimestamp with
      | none =>
        obtain ⟨han, -⟩ := updateOldest_eq_none ho'
        rw [han] at ho
        exact Option.noConfusion ho
      | some o' =>
        exact le_trans (haccb o' ho') (updateOldest_le_acc hwf ho ho')
    · intro e1 he1 t ht htne
      rcases List.mem_cons.mp he1 with rfl | hm
      · cases ho' : updateOldest acc e1.2.firstTxTimestamp with
        | none =>
          rw [ht] at ho'
          exact absurd ho' (updateOldest_ne_none htne)
        | some o' =>
          have hle : o' ≤ t := updateOldest_le_ts hwf htne (ht ▸ ho')
          exact le_trans (haccb o' ho') hle
      · exact hlistb e1 hm t ht htne

lemma oldestTxTimestamp_ne_some_zero (l : TxData) : oldestTxTimestamp l ≠ some 0 := by
  intro h
  obtain ⟨hne, -⟩ := oldest_foldl_some l none (by simp) 0 h
  exact hne rfl

lemma oldest_of_all_none (l : TxData) :
    ∀ acc : Option Int, (∀ e ∈ l, e.2.firstTxTimestamp = none) →
      l.foldl (fun a e => updateOldest a e.2.firstTxTimestamp) acc = acc := by
  induction l with
  | nil => intro acc _; rfl
  | cons e l ih =>
    intro acc hn
    rw [List.foldl_cons, hn e (List.mem_cons_self e l)]
    exact ih acc fun e1 he1 => hn e1 (List.mem_cons_of_mem _ he1)

lemma exists_pos_count_of_total_pos {txData : TxData}
    (h : 0 < totalTransactions txData) : ∃ e ∈ txData, 0 < e.2.count := by
  by_contra hno
  push_neg at hno
  have hz : totalTransactions txData = 0 := by
    apply List.sum_eq_zero
    intro x hx
    obtain ⟨e, he, rfl⟩ := List.mem_map.mp hx
    exact Nat.le_zero.mp (hno e he)
  omega

/-- C4: the account age is the floored day delta from the earliest
timestamp any chain produced; with no timestamp but some transactions it
is the `min(5 * totalCount, 365)` estimate; with no transactions and no
timestamps it is 0. -/
theorem accountAge_derivation (now : ℝ) (txData : TxData) :
    (∀ ts : ℤ, oldestTxTimestamp txData = some ts →
        accountAgeInDays now txData
            = ((⌊(now - (ts : ℝ)) / (1000 * 60 * 60 * 24)⌋ : ℤ) : ℝ)
          ∧ (∃ e ∈ txData, e.2.firstTxTimestamp = some ts)
          ∧ (∀ e ∈ txData, ∀ t : ℤ, e.2.firstTxTimestamp = some t → t ≠ 0 → ts ≤ t))
    ∧ (oldestTxTimestamp txData = none → 0 < totalTransactions txData →
        accountAgeInDays now txData = min ((totalTransactions txData : ℝ) * 5) 365)
    ∧ ((∀ e ∈ txData, e.2.count = 0 ∧ e.2.firstTxTimestamp = none) →
        accountAgeInDays now txData = 0) := by
  refine ⟨?_, ?_, ?_⟩
  · intro ts hts
    have hz : ts ≠ 0 := by
      intro h0
      exact oldestTxTimestamp_ne_some_zero txData (h0 ▸ hts)
    obtain ⟨-, hmem, -, hmin⟩ :=
      oldest_foldl_some txData none (by simp) ts hts
    refine ⟨?_, hmem.resolve_left (by simp), hmin⟩
    unfold accountAgeInDays
    rw [hts]
    exact if_neg hz
  · intro hn htot
    have hfalsy := (oldest_foldl_none txData none hn).2
    obtain ⟨e, he, hc⟩ := exists_pos_count_of_total_pos htot
    have hhas : hasTxButNoTimestamp txData = true := by
      unfold hasTxButNoTimestamp
      rw [List.any_eq_true]
      refine ⟨e, he, ?_⟩
      rcases hfalsy e he with h1 | h1 <;> simp [jsFalsy, h1, hc]
    unfold accountAgeInDays
    rw [hn, hhas]
    simp
  · intro hz
    have hn : oldestTxTimestamp txData = none :=
      oldest_of_all_none txData none fun e he => (hz e he).2
    have hhas : hasTxButNoTimestamp txData = false := by
      unfold hasTxButNoTimestamp
      rw [List.any_eq_false]
      intro e he
      simp [(hz e he).1]
    unfold accountAgeInDays
    rw [hn, hhas]
    simp

/-- Witness for C4: scenario D, count 10 on ethereum and no timestamp
anywhere gives the estimated age `min(10 * 5, 365) = 50`. -/
theorem accountAge_derivation_witness : accountAgeInDays 0 scenarioDMap = 50 := by
  have htot : totalTransactions scenarioDMap = 10 := by decide
  have hn : oldestTxTimestamp scenarioDMap = none := by decide
  have h := (accountAge_derivation 0 scenarioDMap).2.1 hn (by rw [htot]; norm_num)
  rw [h, htot]
  norm_num

/-- C6: after the join the map has exactly one entry per configured chain,
in configuration order, and every chain whose fetch produced nothing
(failure, timeout, or disabled) carries `{count: 0, timestamp: absent}`. -/
theorem buildTxData_complete (fetched : String → Option ChainActivity) :
    (buildTxData fetched).map Prod.fst = configuredChains
      ∧ configuredChains.Nodup
      ∧ (∀ p ∈ buildTxData fetched, fetched p.1 = none → p.2 = defaultActivity)
      ∧ (∀ n ∈ configuredChains,
          (n, (fetched n).getD defaultActivity) ∈ buildTxData fetched) := by
  refine ⟨?_, by decide, ?_, ?_⟩
  · unfold buildTxData
    rw [List.map_map]
    rw [show (Prod.fst ∘ fun n => (n, (fetched n).getD defaultActivity)) = id from rfl]
    exact List.map_id configuredChains
  · intro p hp hnone
    obtain ⟨n, hn, rfl⟩ := List.mem_map.mp hp
    have hf : fetched n = none := hnone
    show (fetched n).getD defaultActivity = defaultActivity
    rw [hf]
    rfl
  · intro n hn
    exact List.mem_map.mpr ⟨n, hn, rfl⟩

/-- Witness for C6 with every fetch failing. -/
theorem buildTxData_complete_witness :
    ("ethereum", defaultActivity) ∈ buildTxData (fun _ => none)
      ∧ (buildTxData (fun _ => none)).map Prod.fst = configuredChains := by
  have h := buildTxData_complete (fun _ => none)
  exact ⟨h.2.2.2 "ethereum" (by decide), h.1⟩

/-- C8 (observed behaviour): the POST route validates like the GET route,
but a valid address makes the handler re-dispatch the unchanged POST
request to itself until the stack is exhausted, producing a 500 — never
the GET handler's score response. -/
theorem post_route_recurses (scoreOf : List Char → ℤ) (addr : List Char)
    (h : isValidWalletAddress addr = true) :
    (∀ fuel : Nat, dispatch scoreOf fuel (.post (some addr)) = .serverError)
      ∧ getWalletScore scoreOf addr = .ok (scoreOf addr)
      ∧ (∀ (fuel : Nat) (a : List Char), isValidWalletAddress a = false →
          dispatch scoreOf fuel (.post (some a)) = .badRequest
            ∧ getWalletScore scoreOf a = .badRequest) := by
  refine ⟨?_, ?_, ?_⟩
  · intro fuel
    induction fuel with
    | zero =>
      unfold dispatch
      rw [if_pos h]
    | succ n ih =>
      unfold dispatch
      rw [if_pos h]
      exact ih
  · unfold getWalletScore
    rw [if_pos h]
  · intro fuel a ha
    have hna : ¬isValidWalletAddress a = true := by simp [ha]
    constructor
    · cases fuel with
      | zero =>
        unfold dispatch
        rw [if_neg hna]
      | succ n =>
        unfold dispatch
        rw [if_neg hna]
    · unfold getWalletScore
      rw [if_neg hna]

/-- Witness for C8 at a concrete valid address and stack depth. -/
theorem post_route_recurses_witness :
    dispatch (fun _ => 300) 1000 (.post (some sampleAddress)) = .serverError
      ∧ getWalletScore (fun _ => 300) sampleAddress = .ok 300 :=
  ⟨(post_route_recurses (fun _ => 300) sampleAddress (by decide)).1 1000,
   (post_route_recurses (fun _ => 300) sampleAddress (by decide)).2.1⟩

/-- C9: a chain whose configured weight is absent or 0 (falsy) is scored
with weight 0.5: the lookup yields 0.5 and the whole result is the same
as with that chain's weight set to 0.5. -/
theorem falsyWeight_scored_as_half (cfg : String → Option ℝ) (n : String)
    (txData : TxData) (age : ℝ) (h : cfg n = none ∨ cfg n = some 0) :
    effectiveWeight cfg n = 0.5
      ∧ calcScoreWith cfg txData age
          = calcScoreWith (fun m => if m = n then some 0.5 else cfg m) txData age := by
  have heff : effectiveWeight cfg n = 0.5 := by
    unfold effectiveWeight
    rcases h with h | h <;> rw [h] <;> simp
  refine ⟨heff, ?_⟩
  have hfun : effectiveWeight (fun m => if m = n then some 0.5 else cfg m)
      = effectiveWeight cfg := by
    funext m
    by_cases hm : m = n
    · subst hm
      rw [heff]
      unfold effectiveWeight
      simp
    · unfold effectiveWeight
      simp only [if_neg hm]
  unfold calcScoreWith finalScore weightedScore txComponent totalWeightedTxCount
  rw [hfun]

/-- Witness for C9 with an all-absent weight table. -/
theorem falsyWeight_scored_as_half_witness :
    effectiveWeight (fun _ => none) "ethereum" = 0.5
      ∧ calcScoreWith (fun _ => none) [("ethereum", ⟨2, none⟩)] 0
          = calcScoreWith (fun m => if m = "ethereum" then some 0.5 else none)
              [("ethereum", ⟨2, none⟩)] 0 :=
  falsyWeight_scored_as_half (fun _ => none) "ethereum" [("ethereum", ⟨2, none⟩)] 0
    (Or.inl rfl)

/-! ## C10: the 0.1 bonus cliff at 30 days -/

lemma effectiveWeight_eth : effectiveWeight networkWeight "ethereum" = 1 := by
  unfold effectiveWeight
  rw [show networkWeight "ethereum" = some 1.0 from by unfold networkWeight; rw [if_pos rfl]]
  norm_num

lemma totalWeighted_eth : totalWeightedTxCount networkWeight ethOnly500 = 500 := by
  unfold totalWeightedTxCount ethOnly500
  rw [List.map_cons, List.map_nil, List.sum_cons, List.sum_nil]
  rw [effectiveWeight_eth]
  norm_num

lemma txComponent_eth : txComponent networkWeight ethOnly500 = 1 := by
  unfold txComponent
  rw [totalWeighted_eth]
  unfold txComponentOf
  rw [if_pos (by norm_num : (0:ℝ) < 500)]
  have hne : Real.log (MAX_TX_COUNT + 1) ≠ 0 :=
    (Real.log_pos (by norm_num [MAX_TX_COUNT])).ne'
  rw [show (500 : ℝ) + 1 = MAX_TX_COUNT + 1 from by norm_num [MAX_TX_COUNT]]
  rw [div_self hne]
  exact min_self 1

lemma total_eth : totalTransactions ethOnly500 = 500 := by decide

lemma activity_eth : activityComponent ethOnly500 = 1 / 5 := by
  unfold activityComponent
  rw [show activeNetworks ethOnly500 = 1 from by decide]
  rw [min_eq_left (by norm_num [MAX_NETWORKS])]
  norm_num [MAX_NETWORKS]

lemma finalScore_eth (age : ℝ) :
    finalScore networkWeight ethOnly500 age = 597 + 165 * ageComponent ethOnly500 age := by
  unfold finalScore weightedScore
  rw [txComponent_eth, activity_eth]
  unfold MIN_SCORE MAX_SCORE TX_COUNT_WEIGHT AGE_WEIGHT ACTIVITY_WEIGHT
  push_cast
  ring

/-- C10: the score is not monotone in account age: with 500 ethereum
transactions, day 30 scores strictly lower than day 29 because the 0.1
young-wallet bonus is dropped at 30 days while `sqrt(30/730)` has not yet
caught up. -/
theorem score_age_cliff :
    0 < totalTransactions ethOnly500
      ∧ (29 : ℝ) < 30
      ∧ (calculateCreditScore ethOnly500 30).score
          < (calculateCreditScore ethOnly500 29).score := by
  refine ⟨by rw [total_eth]; norm_num, by norm_num, ?_⟩
  show round (finalScore networkWeight ethOnly500 30)
      < round (finalScore networkWeight ethOnly500 29)
  have h29 : (645.5 : ℝ) ≤ finalScore networkWeight ethOnly500 29 := by
    rw [finalScore_eth]
    have hb : ageBonus ethOnly500 29 = 0.1 := by
      unfold ageBonus
      rw [if_pos ⟨by rw [total_eth]; norm_num, by norm_num⟩]
    have hsq : (32 / 165 : ℝ) ≤ Real.sqrt (29 / MAX_ACCOUNT_AGE_DAYS) := by
      apply Real.le_sqrt_of_sq_le
      norm_num [MAX_ACCOUNT_AGE_DAYS]
    have hcomp : (97 / 330 : ℝ) ≤ ageComponent ethOnly500 29 := by
      unfold ageComponent
      rw [hb]
      apply le_min
      · linarith
      · norm_num
    linarith
  have h30 : finalScore networkWeight ethOnly500 30 < 630.5 := by
    rw [finalScore_eth]
    have hb : ageBonus ethOnly500 30 = 0 := by
      unfold ageBonus
      rw [if_neg (fun hc => absurd hc.2 (lt_irrefl (30 : ℝ)))]
    have hsq : Real.sqrt (30 / MAX_ACCOUNT_AGE_DAYS) < 67 / 330 := by
      rw [show (30 / MAX_ACCOUNT_AGE_DAYS : ℝ) = 3 / 73 from by norm_num [MAX_ACCOUNT_AGE_DAYS]]
      refine (Real.sqrt_lt' (by norm_num)).mpr ?_
      norm_num
    have hcomp : ageComponent ethOnly500 30 < 67 / 330 := by
      unfold ageComponent
      rw [hb, add_zero]
      exact lt_of_le_of_lt (min_le_left _ _) hsq
    linarith
  have hle : round (finalScore networkWeight ethOnly500 30) ≤ 630 := by
    rw [round_eq]
    have hf : ⌊finalScore networkWeight ethOnly500 30 + 1 / 2⌋ < (631 : ℤ) :=
      Int.floor_lt.mpr (by push_cast; linarith)
    omega
  have hge : (646 : ℤ) ≤ round (finalScore networkWeight ethOnly500 29) := by
    rw [round_eq]
    exact Int.le_floor.mpr (by push_cast; linarith)
  omega

end CreditKernel
